import Mathlib

/-!
# A formal model of `thetacheck.py`

This file gives a shallow embedding of the test-harness `main` function of
`thetacheck.py` together with its helpers, and proves properties of the
embedding corresponding to the specification's claims.

Modelling decisions:

* The subject program and the external checker are external processes.  They
  are modelled as oracles: each test case carries the result of
  `call_with_io_timed(app, indata)` (either `none`, representing an
  invocation that raised an exception, or `some (rawOutput, elapsedSeconds)`),
  and the checker is a function `chk : String → String → Int` from
  (checker command, stdin payload) to the exit status returned by
  `call_for_status_code`.
* Python `float` values are modelled as rationals (`ℚ`); `pyFloat` returns
  the exact decimal value of the literal, whereas CPython rounds it to the
  nearest binary64, at most one half-ulp away.  Every concrete verdict
  proved below agrees with binary64 evaluation of the same input (the
  comparisons go through `round` to at most 10 decimal digits, far from any
  sensitivity to the half-ulp parse error for these inputs); the one place
  where the half-ulp matters in principle - an expected/actual pair aimed
  exactly at a decimal rounding tie - is treated in C4 via the explicit
  binary64 difference, because a dyadic binary64 value never lies exactly
  on such a tie while its exact decimal reading does.
* The list `cases` handed to `mainRun` is the list `files` after the ordering
  step (shuffle / size sort / natural sort of lines 64-72 of the source):
  the ordering is a permutation of the discovered `*.in` files and every
  property proved here is invariant under which permutation was chosen, so
  the embedding starts from the already-ordered list.  `approx_total` is
  initialised to the length of that list, which is the source's value both in
  directory mode (`len(glob("*.in"))`) and in `one_file` mode (`1`).
* Console output matters for the claims only through the error notices and
  the final summary, so the run state records the error notices as strings
  and the summary is produced as a list of structured `ReportLine` values by
  the `report` function (source lines 151-164).
-/

namespace Thetacheck

/-- Characters removed by Python `str.strip()` with no argument
(ASCII whitespace; this is the subset relevant to the files under test). -/
def isPySpace (c : Char) : Bool :=
  c = ' ' || c = '\t' || c = '\n' || c = '\r' || c = '\x0b' || c = '\x0c'

/-- Model of Python `str.strip()`: drop leading and trailing whitespace. -/
def pyStrip (s : String) : String :=
  String.mk (((s.data.dropWhile isPySpace).reverse.dropWhile isPySpace).reverse)

/-- Numeric value of a run of decimal digit characters. -/
def digitsVal (ds : List Char) : ℕ :=
  ds.foldl (fun n c => 10 * n + (c.toNat - 48)) 0

/-- Parse a whole character list as an optionally signed nonempty digit run. -/
def signedIntVal : List Char → Option ℤ
  | '-' :: ds => if ds ≠ [] ∧ ds.all Char.isDigit then some (-(digitsVal ds : ℤ)) else none
  | '+' :: ds => if ds ≠ [] ∧ ds.all Char.isDigit then some ((digitsVal ds : ℤ)) else none
  | ds => if ds ≠ [] ∧ ds.all Char.isDigit then some ((digitsVal ds : ℤ)) else none

/-- Parse the mantissa part of a decimal literal (`digits`, `digits.`,
`digits.digits` or `.digits`), returning its value and the unconsumed rest. -/
def pyFloatMantissa (cs : List Char) : Option (ℚ × List Char) :=
  let intPart := cs.takeWhile Char.isDigit
  let rest := cs.dropWhile Char.isDigit
  match rest with
  | '.' :: r =>
    let frac := r.takeWhile Char.isDigit
    let rest2 := r.dropWhile Char.isDigit
    if intPart.isEmpty && frac.isEmpty then none
    else some ((digitsVal intPart : ℚ) + (digitsVal frac : ℚ) / (10 : ℚ) ^ frac.length, rest2)
  | _ => if intPart.isEmpty then none else some ((digitsVal intPart : ℚ), rest)

/-- Parse an optional exponent suffix (`e±digits`); the empty list means
exponent `0`. -/
def pyFloatExp : List Char → Option ℤ
  | [] => some 0
  | 'e' :: r => signedIntVal r
  | 'E' :: r => signedIntVal r
  | _ => none

/-- Unsigned part of `pyFloat`. -/
def pyFloatAbs (cs : List Char) : Option ℚ :=
  match pyFloatMantissa cs with
  | none => none
  | some (m, rest) =>
    match pyFloatExp rest with
    | none => none
    | some e => some (m * (10 : ℚ) ^ e)

/-- Model of Python `float(s)` on finite decimal literals, as used on the
already-stripped expected/actual output texts at line 131 of the source.
The value is kept as the exact decimal rational; CPython instead rounds it
to the nearest IEEE-754 binary64, within one half-ulp of this value (see
the module comment for where that difference is relevant).  `none` models
the `ValueError` that `float` raises on a malformed string.  (`inf`, `nan`
and underscore separators are outside the modelled subset.) -/
def pyFloat (s : String) : Option ℚ :=
  match s.data with
  | '-' :: cs => (pyFloatAbs cs).map (fun q => -q)
  | '+' :: cs => pyFloatAbs cs
  | cs => pyFloatAbs cs

/-- Round a rational to the nearest integer, ties to even - the rounding
Python's builtin `round` performs. -/
def roundHalfEven (q : ℚ) : ℤ :=
  let f := ⌊q⌋
  if q - f < 1 / 2 then f
  else if 1 / 2 < q - f then f + 1
  else if f % 2 = 0 then f else f + 1

/-- Model of Python `round(q, n)`: round to `n` decimal digits, ties to even. -/
def pyRound (q : ℚ) (n : ℕ) : ℚ :=
  (roundHalfEven (q * (10 : ℚ) ^ n) : ℚ) / (10 : ℚ) ^ n

/-- The run configuration: the subset of `main`'s parameters that the
statistics and verdicts depend on.  The verbosity flags only change what is
printed, never the control flow or the accumulator, and the ordering flags
only choose the permutation in which `cases` is presented (see the module
comment), so neither appears here. -/
structure Config where
  app : String
  checker : Option String
  result_dist : Option ℚ
  empty_means_any : Bool
  timer : Bool
  limit : Option ℤ
  deriving DecidableEq, Repr

/-- One discovered test case, together with the behaviour of the external
world on it: `hasOut` is whether `<name>.out` is in `all_files`, `inContent`
and `outContent` are the raw file contents, and `invocation` is the outcome
of `call_with_io_timed(app, indata)` - `none` when the invocation raises an
exception, otherwise the raw captured output and the elapsed seconds. -/
structure TestCase where
  name : String
  inContent : String
  hasOut : Bool
  outContent : String
  invocation : Option (String × ℚ)
  deriving DecidableEq, Repr

/-- The accumulator of `main` (lines 76-81), extended with bookkeeping that
makes the claims statable: `denoms` records the value of `approx_total` each
time the progress percentage `total / approx_total * 100` is evaluated
(line 94 - its arguments are evaluated on every iteration, verbose or not),
and `errors` records the `[Error]` notices printed so far. -/
structure RunState where
  total : ℕ
  correct : ℕ
  overtime_count : ℕ
  wrong : List String
  overtime : List String
  times : List ℚ
  approx_total : ℤ
  denoms : List ℤ
  errors : List String
  deriving DecidableEq, Repr

/-- The one exception class that escapes a single iteration of the loop:
`float()` raising `ValueError` at line 131.  (The invocation `try/except` at
lines 113-119 swallows subject-process exceptions, and `KeyboardInterrupt`
is handled at line 148.) -/
inductive RunError where
  | parseFailure (name : String)
  deriving DecidableEq, Repr

/-- The accumulator at loop entry. -/
def initState (approx0 : ℤ) : RunState :=
  ⟨0, 0, 0, [], [], [], approx0, [], []⟩

/-- Error notice of line 99. -/
def missingOutMsg (c : TestCase) : String :=
  "[Error] Missing out file for test " ++ c.name ++ ".in"

/-- Error notice of line 108. -/
def emptyInMsg (c : TestCase) : String :=
  "[Error] The input file for test " ++ c.name ++ ".in is empty"

/-- Error notice of line 118. -/
def excMsg (cfg : Config) (c : TestCase) : String :=
  "[Error] Got exception while executing test " ++ c.name ++ " with " ++ cfg.app

/-- The correctness verdict of lines 129-139: numeric tolerance first if
configured, else external checker, else exact/empty-means-any comparison.
`none` models the uncaught `ValueError` from `float()` on a malformed
expected or actual text. -/
def evaluate (cfg : Config) (chk : String → String → Int)
    (indata outdata out : String) : Option Bool :=
  match cfg.result_dist with
  | some d =>
    match pyFloat outdata, pyFloat out with
    | some e, some a => some (decide (pyRound |e - a| 10 ≤ d))
    | _, _ => none
  | none =>
    match cfg.checker with
    | some ck => some (decide (chk ck (indata ++ "\n" ++ out) = 0))
    | none => some ((cfg.empty_means_any && (outdata == "")) || (outdata == out))

/-- One iteration of the loop body (lines 89-147) on test case `c`:
record the progress-percentage denominator, handle the missing-out-file and
empty-input discovery errors, run the subject (skipping statistics on an
invocation exception), apply the § overtime / timer bookkeeping, and finally
evaluate correctness and update `total`, `correct` and `wrong`. -/
def processCase (cfg : Config) (chk : String → String → Int)
    (c : TestCase) (s : RunState) : RunState × Option RunError :=
  let s1 : RunState := { s with denoms := s.denoms ++ [s.approx_total] }
  let indata := pyStrip c.inContent
  if c.hasOut = false ∧ cfg.empty_means_any = false ∧ cfg.checker = none then
    ({ s1 with approx_total := s1.approx_total - 1,
               errors := s1.errors ++ [missingOutMsg c] }, none)
  else
    let outdata := if c.hasOut then pyStrip c.outContent else ""
    if indata = "" then
      ({ s1 with approx_total := s1.approx_total - 1,
                 errors := s1.errors ++ [emptyInMsg c] }, none)
    else
      match c.invocation with
      | none => ({ s1 with errors := s1.errors ++ [excMsg cfg c] }, none)
      | some (rawOut, time_taken) =>
        let out := pyStrip rawOut
        let s2 : RunState :=
          if 1 < time_taken then
            { s1 with overtime_count := s1.overtime_count + 1,
                      overtime := s1.overtime ++ [c.name] }
          else s1
        let s3 : RunState :=
          if cfg.timer then { s2 with times := s2.times ++ [time_taken] } else s2
        match evaluate cfg chk indata outdata out with
        | none => (s3, some (RunError.parseFailure c.name))
        | some b =>
          if b then ({ s3 with correct := s3.correct + 1, total := s3.total + 1 }, none)
          else ({ s3 with wrong := s3.wrong ++ [c.name], total := s3.total + 1 }, none)

/-- The testing loop: run the cases in order, stopping at the first uncaught
per-case exception (which aborts the whole run in the source). -/
def runLoop (cfg : Config) (chk : String → String → Int) :
    List TestCase → RunState → RunState × Option RunError
  | [], s => (s, none)
  | c :: rest, s =>
    match processCase cfg chk c s with
    | (s', none) => runLoop cfg chk rest s'
    | (s', some e) => (s', some e)

/-- Python `xs[:l]` for an arbitrary (possibly negative) integer `l`. -/
def pySlice {α : Type} (l : ℤ) (xs : List α) : List α :=
  if 0 ≤ l then xs.take l.toNat else xs.take (xs.length - (-l).toNat)

/-- Lines 73-75: truncate the ordered case list when a limit is configured,
returning the truncated list and the resulting initial `approx_total`. -/
def applyLimit (limit : Option ℤ) (files : List TestCase) : List TestCase × ℤ :=
  match limit with
  | none => (files, (files.length : ℤ))
  | some l =>
    if (files.length : ℤ) > l then (pySlice l files, l) else (files, (files.length : ℤ))

/-- One line of the terminal report (lines 151-163), structured. -/
inductive ReportLine where
  | doneTesting (app : String)
  | noValidTests
  | correctSummary (correct total : ℕ) (pct : ℚ)
  | failedTests (names : List String)
  | overtimeSummary (count total : ℕ) (pct : ℚ) (names : List String)
  | timesLine (shown : List ℚ)
  deriving DecidableEq, Repr

/-- The values printed on the `Times:` line (line 163): each recorded
duration rounded to 4 decimal digits, keeping only the truthy (nonzero)
ones - `str(round(t, 4)) for t in times if round(t, 4)`. -/
def reportTimes (times : List ℚ) : List ℚ :=
  (times.filter (fun t => decide (pyRound t 4 ≠ 0))).map (fun t => pyRound t 4)

/-- The terminal report (lines 151-164): the printed lines and the returned
boolean. -/
def report (app : String) (timer : Bool) (s : RunState) : List ReportLine × Bool :=
  if s.total = 0 then ([ReportLine.doneTesting app, ReportLine.noValidTests], false)
  else
    ([ReportLine.doneTesting app,
      ReportLine.correctSummary s.correct s.total
        (pyRound ((s.correct : ℚ) / (s.total : ℚ) * 100) 2)]
     ++ (if s.wrong.isEmpty then [] else [ReportLine.failedTests s.wrong])
     ++ (if s.overtime.isEmpty then []
         else [ReportLine.overtimeSummary s.overtime_count s.total
                 (pyRound ((s.overtime_count : ℚ) / (s.total : ℚ) * 100) 2) s.overtime])
     ++ (if timer then [ReportLine.timesLine (reportTimes s.times)] else []), true)

/-- The loop part of `main`: apply the limit, optionally cut the iteration
short after `k` cases (modelling a `KeyboardInterrupt` arriving at the `k`-th
iteration boundary), and run the loop from the initial accumulator.  Returns
the final accumulator and the uncaught exception, if any. -/
def mainRunState (cfg : Config) (chk : String → String → Int)
    (cases : List TestCase) (cancel : Option ℕ) : RunState × Option RunError :=
  let fa := applyLimit cfg.limit cases
  let it := match cancel with
    | none => fa.1
    | some k => fa.1.take k
  runLoop cfg chk it (initState fa.2)

/-- The observable outcome of `main` (after the ordering step): `none` when
an uncaught per-case exception aborts the run before the summary, otherwise
the printed report and the returned boolean.  A `KeyboardInterrupt`
(`cancel = some k`) is caught at line 148 and still reaches the report. -/
def mainRun (cfg : Config) (chk : String → String → Int)
    (cases : List TestCase) (cancel : Option ℕ) : Option (List ReportLine × Bool) :=
  match mainRunState cfg chk cases cancel with
  | (s, none) => some (report cfg.app cfg.timer s)
  | (_, some _) => none

attribute [local semireducible] Rat.add Rat.mul Rat.inv Rat.sub Rat.ofScientific

/-! ## Shape lemmas about one loop iteration -/

/-- The invocation-exception path (lines 116-119): the notice is logged and
nothing else changes beyond the recorded progress denominator. -/
theorem processCase_exc (cfg : Config) (chk : String → String → Int)
    (c : TestCase) (s : RunState)
    (hcond : ¬(c.hasOut = false ∧ cfg.empty_means_any = false ∧ cfg.checker = none))
    (hin : pyStrip c.inContent ≠ "") (hinv : c.invocation = none) :
    processCase cfg chk c s =
      ({ s with denoms := s.denoms ++ [s.approx_total],
                errors := s.errors ++ [excMsg cfg c] }, none) := by
  simp only [processCase, if_neg hcond, if_neg hin, hinv]

/-- A case whose evaluation yields a verdict increments `total` and does not
touch `approx_total`. -/
theorem processCase_eval_some (cfg : Config) (chk : String → String → Int)
    (c : TestCase) (s : RunState) (rawOut : String) (t : ℚ) (b : Bool)
    (hcond : ¬(c.hasOut = false ∧ cfg.empty_means_any = false ∧ cfg.checker = none))
    (hin : pyStrip c.inContent ≠ "") (hinv : c.invocation = some (rawOut, t))
    (hev : evaluate cfg chk (pyStrip c.inContent)
        (if c.hasOut then pyStrip c.outContent else "") (pyStrip rawOut) = some b) :
    (processCase cfg chk c s).2 = none ∧
    ((processCase cfg chk c s).1).total = s.total + 1 ∧
    ((processCase cfg chk c s).1).approx_total = s.approx_total := by
  simp only [processCase, if_neg hcond, if_neg hin, hinv, hev]
  repeat' split
  all_goals simp

/-- A case whose evaluation raises surfaces the uncaught exception. -/
theorem processCase_eval_none (cfg : Config) (chk : String → String → Int)
    (c : TestCase) (s : RunState) (rawOut : String) (t : ℚ)
    (hcond : ¬(c.hasOut = false ∧ cfg.empty_means_any = false ∧ cfg.checker = none))
    (hin : pyStrip c.inContent ≠ "") (hinv : c.invocation = some (rawOut, t))
    (hev : evaluate cfg chk (pyStrip c.inContent)
        (if c.hasOut then pyStrip c.outContent else "") (pyStrip rawOut) = none) :
    (processCase cfg chk c s).2 = some (RunError.parseFailure c.name) := by
  simp only [processCase, if_neg hcond, if_neg hin, hinv, hev]

/-- Every iteration evaluates the progress-percentage arguments exactly once,
recording the current `approx_total` as the denominator. -/
theorem processCase_denoms (cfg : Config) (chk : String → String → Int)
    (c : TestCase) (s : RunState) :
    ((processCase cfg chk c s).1).denoms = s.denoms ++ [s.approx_total] := by
  simp only [processCase]
  repeat' split
  all_goals rfl

/-- An iteration decrements `approx_total` at most once (and only on the two
discovery-error paths). -/
theorem processCase_approx (cfg : Config) (chk : String → String → Int)
    (c : TestCase) (s : RunState) :
    ((processCase cfg chk c s).1).approx_total = s.approx_total ∨
    ((processCase cfg chk c s).1).approx_total = s.approx_total - 1 := by
  simp only [processCase]
  repeat' split
  all_goals simp

/-- Each iteration either leaves `total`, `correct` and `wrong` untouched
(discovery error, invocation exception, or uncaught parse failure), or
increments `total` together with exactly one of `correct` / `wrong`. -/
theorem processCase_counts (cfg : Config) (chk : String → String → Int)
    (c : TestCase) (s : RunState) :
    (((processCase cfg chk c s).1).total = s.total ∧
     ((processCase cfg chk c s).1).correct = s.correct ∧
     ((processCase cfg chk c s).1).wrong = s.wrong) ∨
    (((processCase cfg chk c s).1).total = s.total + 1 ∧
     ((processCase cfg chk c s).1).correct = s.correct + 1 ∧
     ((processCase cfg chk c s).1).wrong = s.wrong) ∨
    (((processCase cfg chk c s).1).total = s.total + 1 ∧
     ((processCase cfg chk c s).1).correct = s.correct ∧
     ((processCase cfg chk c s).1).wrong = s.wrong ++ [c.name]) := by
  simp only [processCase]
  repeat' split
  all_goals simp

/-- Any state predicate preserved by single iterations is preserved by the
whole loop, whether it runs to completion or stops at an uncaught
exception. -/
theorem runLoop_preserves (cfg : Config) (chk : String → String → Int)
    (P : RunState → Prop)
    (hstep : ∀ c s, P s → P ((processCase cfg chk c s).1)) :
    ∀ (cs : List TestCase) (s : RunState), P s → P ((runLoop cfg chk cs s).1) := by
  intro cs
  induction cs with
  | nil => intro s h; exact h
  | cons c rest ih =>
    intro s h
    have h' := hstep c s h
    rcases hp : processCase cfg chk c s with ⟨s', e⟩
    rw [hp] at h'
    cases e with
    | none =>
      have : runLoop cfg chk (c :: rest) s = runLoop cfg chk rest s' := by
        simp only [runLoop, hp]
      rw [this]
      exact ih s' h'
    | some e =>
      have : runLoop cfg chk (c :: rest) s = (s', some e) := by
        simp only [runLoop, hp]
      rw [this]
      exact h'

/-- C1.  For every non-cancelled run, the final accumulator satisfies
`total = correct + length wrong`; moreover a case whose invocation raises an
exception leaves `total`, `correct` and `wrong` untouched (it only logs a
notice), while a case that reaches evaluation increments `total` exactly
once, together with `correct` on a correct verdict and with an appended
`wrong` entry on an incorrect one. -/
theorem C1_total_invariant :
    (∀ (cfg : Config) (chk : String → String → Int) (cases : List TestCase),
        ((mainRunState cfg chk cases none).1).total =
          ((mainRunState cfg chk cases none).1).correct +
            ((mainRunState cfg chk cases none).1).wrong.length) ∧
    (∀ (cfg : Config) (chk : String → String → Int) (c : TestCase) (s : RunState),
        c.invocation = none →
        ((processCase cfg chk c s).1).total = s.total ∧
        ((processCase cfg chk c s).1).correct = s.correct ∧
        ((processCase cfg chk c s).1).wrong = s.wrong) ∧
    (∀ (cfg : Config) (chk : String → String → Int) (c : TestCase) (s : RunState)
        (rawOut : String) (t : ℚ) (b : Bool),
        ¬(c.hasOut = false ∧ cfg.empty_means_any = false ∧ cfg.checker = none) →
        pyStrip c.inContent ≠ "" →
        c.invocation = some (rawOut, t) →
        evaluate cfg chk (pyStrip c.inContent)
          (if c.hasOut then pyStrip c.outContent else "") (pyStrip rawOut) = some b →
        ((processCase cfg chk c s).1).total = s.total + 1 ∧
        (b = true → ((processCase cfg chk c s).1).correct = s.correct + 1 ∧
                    ((processCase cfg chk c s).1).wrong = s.wrong) ∧
        (b = false → ((processCase cfg chk c s).1).correct = s.correct ∧
                     ((processCase cfg chk c s).1).wrong = s.wrong ++ [c.name])) := by
  refine ⟨?_, ?_, ?_⟩
  · intro cfg chk cases
    have : ∀ s : RunState, s.total = s.correct + s.wrong.length →
        ((mainRunState cfg chk cases none).1).total =
          ((mainRunState cfg chk cases none).1).correct +
            ((mainRunState cfg chk cases none).1).wrong.length := by
      intro s hs
      exact runLoop_preserves cfg chk (fun s => s.total = s.correct + s.wrong.length)
        (by
          intro c s h
          rcases processCase_counts cfg chk c s with ⟨h1, h2, h3⟩ | ⟨h1, h2, h3⟩ | ⟨h1, h2, h3⟩ <;>
            simp [h1, h2, h3, h] <;> omega)
        _ _ rfl
    exact this (initState 0) rfl
  · intro cfg chk c s h
    simp only [processCase, h]
    repeat' split
    all_goals simp
  · intro cfg chk c s rawOut t b h1 h2 h3 h4
    simp only [processCase, h3, if_neg h1, if_neg h2, h4]
    cases b
    all_goals
      simp only [Bool.false_eq_true, if_false, if_true]
      repeat' split
    all_goals simp

/-- Witness for `C1_total_invariant`: a concrete exception-raising invocation
touches none of the three statistics. -/
theorem C1_total_invariant_witness :
    ((processCase ⟨"app", none, none, true, false, none⟩ (fun _ _ => 0)
        ⟨"t", "5", true, "5", none⟩ (initState 1)).1).total = (initState 1).total ∧
    ((processCase ⟨"app", none, none, true, false, none⟩ (fun _ _ => 0)
        ⟨"t", "5", true, "5", none⟩ (initState 1)).1).correct = (initState 1).correct ∧
    ((processCase ⟨"app", none, none, true, false, none⟩ (fun _ _ => 0)
        ⟨"t", "5", true, "5", none⟩ (initState 1)).1).wrong = (initState 1).wrong :=
  C1_total_invariant.2.1 _ _ _ _ rfl

/-! ## C2: the missing-output-file policy -/

/-- C2 (counterexample).  The claim states that with a numeric tolerance
configured (here `result_dist = 0`), empty-means-any disabled and no checker,
a case with a missing expected-output file is not an error and proceeds with
empty expected output.  The code checks only `not empty_means_any and
checker is None` (line 97), so in exactly that configuration the case is
error-skipped instead: `total` stays 0, `approx_total` is decremented, the
missing-out notice is logged, and evaluation is never reached. -/
theorem C2_cex :
    processCase ⟨"app", none, some 0, false, false, none⟩ (fun _ _ => 0)
        ⟨"t", "5", false, "", some ("5", 0)⟩ (initState 1) =
      ({ total := 0, correct := 0, overtime_count := 0, wrong := [], overtime := [],
         times := [], approx_total := 0, denoms := [1],
         errors := ["[Error] Missing out file for test t.in"] }, none) := by
  decide

/-- C2 (amended).  A discovered case with a nonempty input and a missing
expected-output file is reported as an error, skipped and excluded from the
pool if and only if empty-means-any is disabled and no external checker is
configured - independently of whether a numeric tolerance is active.  In
every other configuration the case proceeds (with empty expected output). -/
theorem C2_missing_out_policy :
    ∀ (cfg : Config) (chk : String → String → Int) (c : TestCase) (s : RunState),
      c.hasOut = false → pyStrip c.inContent ≠ "" →
      ((processCase cfg chk c s =
          ({ s with denoms := s.denoms ++ [s.approx_total],
                    approx_total := s.approx_total - 1,
                    errors := s.errors ++ [missingOutMsg c] }, none)) ↔
        (cfg.empty_means_any = false ∧ cfg.checker = none)) := by
  intro cfg chk c s hOut hin
  constructor
  · intro h
    by_cases hc : cfg.empty_means_any = false ∧ cfg.checker = none
    · exact hc
    · exfalso
      have hcond : ¬(c.hasOut = false ∧ cfg.empty_means_any = false ∧ cfg.checker = none) :=
        fun hh => hc ⟨hh.2.1, hh.2.2⟩
      rcases hinv : c.invocation with _ | ⟨o, t⟩
      · rw [processCase_exc cfg chk c s hcond hin hinv] at h
        have h' := congrArg (fun p => p.1.approx_total) h
        dsimp only at h'
        omega
      · rcases hev : evaluate cfg chk (pyStrip c.inContent)
            (if c.hasOut then pyStrip c.outContent else "") (pyStrip o) with _ | b
        · have he := processCase_eval_none cfg chk c s o t hcond hin hinv hev
          rw [h] at he
          simp at he
        · have he := (processCase_eval_some cfg chk c s o t b hcond hin hinv hev).2.1
          rw [h] at he
          dsimp only at he
          omega
  · rintro ⟨h1, h2⟩
    have hcondp : c.hasOut = false ∧ cfg.empty_means_any = false ∧ cfg.checker = none :=
      ⟨hOut, h1, h2⟩
    simp only [processCase, if_pos hcondp]

/-- Witness for `C2_missing_out_policy`: concrete strict configuration in
which the missing-output case really is error-skipped. -/
theorem C2_missing_out_policy_witness :
    processCase ⟨"app", none, none, false, false, none⟩ (fun _ _ => 0)
        ⟨"t", "5", false, "", some ("5", 0)⟩ (initState 1) =
      ({ initState 1 with
           denoms := (initState 1).denoms ++ [(initState 1).approx_total],
           approx_total := (initState 1).approx_total - 1,
           errors := (initState 1).errors ++
             [missingOutMsg ⟨"t", "5", false, "", some ("5", 0)⟩] }, none) :=
  (C2_missing_out_policy _ _ _ _ rfl (by decide)).mpr ⟨rfl, rfl⟩

/-! ## C3: numeric-tolerance parse failures -/

/-- In numeric-tolerance mode, a malformed expected or actual text makes the
evaluation raise rather than return a verdict. -/
theorem evaluate_parse_none (cfg : Config) (chk : String → String → Int)
    (ind o a : String) (d : ℚ) (hrd : cfg.result_dist = some d)
    (h : pyFloat o = none ∨ pyFloat a = none) :
    evaluate cfg chk ind o a = none := by
  simp only [evaluate, hrd]
  rcases h1 : pyFloat o with _ | e <;> rcases h2 : pyFloat a with _ | av <;> simp_all

/-- A parse failure at line 131 escapes the iteration as an uncaught
exception, after the overtime/timer bookkeeping but before any of `total`,
`correct`, `wrong` or the error notices is touched. -/
theorem processCase_parse_failure (cfg : Config) (chk : String → String → Int)
    (c : TestCase) (s : RunState) (rawOut : String) (t : ℚ) (d : ℚ)
    (hrd : cfg.result_dist = some d) (hOut : c.hasOut = true)
    (hin : pyStrip c.inContent ≠ "") (hinv : c.invocation = some (rawOut, t))
    (hpf : pyFloat (pyStrip c.outContent) = none ∨ pyFloat (pyStrip rawOut) = none) :
    (processCase cfg chk c s).2 = some (RunError.parseFailure c.name) ∧
    ((processCase cfg chk c s).1).total = s.total ∧
    ((processCase cfg chk c s).1).correct = s.correct ∧
    ((processCase cfg chk c s).1).wrong = s.wrong ∧
    ((processCase cfg chk c s).1).errors = s.errors := by
  have hcond : ¬(c.hasOut = false ∧ cfg.empty_means_any = false ∧ cfg.checker = none) := by
    simp [hOut]
  have hev : evaluate cfg chk (pyStrip c.inContent)
      (if c.hasOut then pyStrip c.outContent else "") (pyStrip rawOut) = none := by
    rw [if_pos hOut]
    exact evaluate_parse_none cfg chk _ _ _ d hrd hpf
  simp only [processCase, if_neg hcond, if_neg hin, hinv, hev]
  repeat' split
  all_goals simp

/-- C3 (amended).  In numeric-tolerance mode a parse failure of the expected
text or of the subject's output is surfaced distinctly from an `incorrect`
verdict - the case is neither counted in `total` nor appended to the failing
list, and no `[Error]` notice path is taken - but it is NOT recovered
locally: the exception aborts the whole run, the remaining cases are not
processed, and the final summary report is never printed. -/
theorem C3_parse_failure_aborts :
    ∀ (cfg : Config) (chk : String → String → Int) (c : TestCase)
      (rest : List TestCase) (s : RunState) (rawOut : String) (t : ℚ) (d : ℚ),
      cfg.result_dist = some d → c.hasOut = true → pyStrip c.inContent ≠ "" →
      c.invocation = some (rawOut, t) →
      (pyFloat (pyStrip c.outContent) = none ∨ pyFloat (pyStrip rawOut) = none) →
      ((runLoop cfg chk (c :: rest) s).2 = some (RunError.parseFailure c.name) ∧
       ((runLoop cfg chk (c :: rest) s).1).total = s.total ∧
       ((runLoop cfg chk (c :: rest) s).1).correct = s.correct ∧
       ((runLoop cfg chk (c :: rest) s).1).wrong = s.wrong ∧
       ((runLoop cfg chk (c :: rest) s).1).errors = s.errors) ∧
      (cfg.limit = none → mainRun cfg chk (c :: rest) none = none) := by
  intro cfg chk c rest s rawOut t d hrd hOut hin hinv hpf
  have hloop : ∀ s₀ : RunState,
      runLoop cfg chk (c :: rest) s₀ =
        ((processCase cfg chk c s₀).1, some (RunError.parseFailure c.name)) := by
    intro s₀
    have hp := processCase_parse_failure cfg chk c s₀ rawOut t d hrd hOut hin hinv hpf
    rcases hq : processCase cfg chk c s₀ with ⟨s', e⟩
    rw [hq] at hp
    simp only at hp
    rw [hp.1]
    simp [runLoop, hq, hp.1]
  constructor
  · have hp := processCase_parse_failure cfg chk c s rawOut t d hrd hOut hin hinv hpf
    rw [hloop s]
    exact ⟨rfl, hp.2.1, hp.2.2.1, hp.2.2.2.1, hp.2.2.2.2⟩
  · intro hlim
    simp only [mainRun, mainRunState, hlim, applyLimit, hloop]

/-- C3 (counterexample).  A concrete numeric-tolerance run whose first case
has an unparseable expected text: the whole run aborts with the parse
failure, the summary is never printed (`mainRun` is `none`) even though a
second, well-formed case was waiting, and the failing case appears in
neither `wrong` nor `total`.  This refutes the claim that the parse failure
is recovered locally with the summary still printing. -/
theorem C3_cex :
    mainRun ⟨"app", none, some 0, true, false, none⟩ (fun _ _ => 0)
        [⟨"t1", "5", true, "abc", some ("5", 0)⟩, ⟨"t2", "5", true, "5", some ("5", 0)⟩]
        none = none ∧
    (mainRunState ⟨"app", none, some 0, true, false, none⟩ (fun _ _ => 0)
        [⟨"t1", "5", true, "abc", some ("5", 0)⟩, ⟨"t2", "5", true, "5", some ("5", 0)⟩]
        none).2 = some (RunError.parseFailure "t1") ∧
    (mainRunState ⟨"app", none, some 0, true, false, none⟩ (fun _ _ => 0)
        [⟨"t1", "5", true, "abc", some ("5", 0)⟩, ⟨"t2", "5", true, "5", some ("5", 0)⟩]
        none).1.total = 0 ∧
    (mainRunState ⟨"app", none, some 0, true, false, none⟩ (fun _ _ => 0)
        [⟨"t1", "5", true, "abc", some ("5", 0)⟩, ⟨"t2", "5", true, "5", some ("5", 0)⟩]
        none).1.wrong = [] := by
  decide

/-- Witness for `C3_parse_failure_aborts`: a run whose subject prints an
unparseable number aborts with no report. -/
theorem C3_parse_failure_aborts_witness :
    mainRun ⟨"app", none, some 0, true, false, none⟩ (fun _ _ => 0)
        [⟨"t", "7", true, "5", some ("xyz", 0)⟩] none = none :=
  (C3_parse_failure_aborts ⟨"app", none, some 0, true, false, none⟩ (fun _ _ => 0)
      ⟨"t", "7", true, "5", some ("xyz", 0)⟩ [] (initState 1) "xyz" 0 0
      rfl rfl (by decide) rfl (Or.inr (by decide))).2 rfl

/-! ## C4: numeric-tolerance rounding -/

/-- C4 (counterexample).  The claim predicts that expected "1.00000000001"
against actual "1.0" at tolerance 0 yields incorrect; in fact the absolute
difference 1e-11 rounds to 0 at 10 decimal digits, so the code judges the
case CORRECT. -/
theorem C4_cex :
    evaluate ⟨"app", none, some 0, false, false, none⟩ (fun _ _ => 0)
      "in" "1.00000000001" "1.0" = some true := by
  decide

/-- C4 (amended).  At tolerance 0, expected "1.00000000001" vs actual "1.0"
is judged correct: the difference rounds to 0 at 10 decimal digits
(the same verdict whether the difference is taken as the exact decimal
1e-11 or as the binary64 difference 45036/2^52 - both scale to under 1/2).
In general the verdict is `round(abs(expected - actual), 10) <= epsilon`,
with `round` applied by CPython to the binary64 difference; a binary64
value is dyadic and never lies exactly on a decimal rounding tie, and at
the tie-aimed input expected "1.00000000005" vs actual "1.0" the binary64
difference is exactly 225180/2^52, which rounds to 1e-10 - nonzero, so
that input is judged INCORRECT at tolerance 0. -/
theorem C4_numeric_rounding :
    evaluate ⟨"app", none, some 0, false, false, none⟩ (fun _ _ => 0)
      "in" "1.00000000001" "1.0" = some true ∧
    (pyRound ((225180 : ℚ) / 2 ^ 52) 10 = 1 / 10 ^ 10 ∧
      ¬(pyRound ((225180 : ℚ) / 2 ^ 52) 10 ≤ 0)) ∧
    (∀ (cfg : Config) (chk : String → String → Int) (ind o a : String) (d e av : ℚ),
      cfg.result_dist = some d → pyFloat o = some e → pyFloat a = some av →
      evaluate cfg chk ind o a = some (decide (pyRound |e - av| 10 ≤ d))) := by
  refine ⟨by decide, ⟨by decide, by decide⟩, ?_⟩
  intro cfg chk ind o a d e av hrd ho ha
  simp [evaluate, hrd, ho, ha]

/-- Witness for `C4_numeric_rounding`: the general verdict formula evaluated
at expected "2.5", actual "2.0", tolerance 0. -/
theorem C4_numeric_rounding_witness :
    evaluate ⟨"app", none, some 0, false, false, none⟩ (fun _ _ => 0)
      "in" "2.5" "2.0" = some (decide (pyRound |(5 / 2 : ℚ) - 2| 10 ≤ (0 : ℚ))) :=
  C4_numeric_rounding.2.2 _ _ "in" "2.5" "2.0" 0 (5 / 2) 2 rfl (by decide) (by decide)

/-! ## C5: evaluator precedence -/

/-- Spec-side evaluator, written from the specification's words for the
refinement comparison of C5: "Modes are evaluated in a fixed precedence:
numeric-tolerance first if configured, else external-checker if configured,
else exact/empty-any", with the exact/empty-any verdict "(empty-means-any
enabled and expected is empty) or expected equals actual". -/
def evaluateSpec (cfg : Config) (chk : String → String → Int)
    (indata outdata out : String) : Option Bool :=
  if cfg.result_dist.isSome then
    match cfg.result_dist, pyFloat outdata, pyFloat out with
    | some d, some e, some a => some (decide (pyRound |e - a| 10 ≤ d))
    | _, _, _ => none
  else if cfg.checker.isSome then
    match cfg.checker with
    | some ck => some (decide (chk ck (indata ++ "\n" ++ out) = 0))
    | none => none
  else
    some (decide ((cfg.empty_means_any = true ∧ outdata = "") ∨ outdata = out))

/-- C5.  Exactly one evaluator decides each case, chosen by the fixed
precedence numeric-tolerance → external-checker → exact/empty-means-any:
the code's verdict coincides with the spec-worded `evaluateSpec`; moreover
with a numeric tolerance configured the verdict is independent of the
checker oracle, with neither numeric tolerance nor checker it is also
independent of the checker oracle, and in checker mode it is independent of
the expected text. -/
theorem C5_evaluator_precedence :
    (∀ (cfg : Config) (chk : String → String → Int) (ind o a : String),
        evaluate cfg chk ind o a = evaluateSpec cfg chk ind o a) ∧
    (∀ (cfg : Config) (chk chk' : String → String → Int) (ind o a : String),
        cfg.result_dist ≠ none → evaluate cfg chk ind o a = evaluate cfg chk' ind o a) ∧
    (∀ (cfg : Config) (chk chk' : String → String → Int) (ind o a : String),
        cfg.result_dist = none → cfg.checker = none →
        evaluate cfg chk ind o a = evaluate cfg chk' ind o a) ∧
    (∀ (cfg : Config) (chk : String → String → Int) (ind o o' a : String),
        cfg.result_dist = none → cfg.checker ≠ none →
        evaluate cfg chk ind o a = evaluate cfg chk ind o' a) := by
  refine ⟨?_, ?_, ?_, ?_⟩
  · intro cfg chk ind o a
    rcases hrd : cfg.result_dist with _ | d
    · rcases hck : cfg.checker with _ | ck
      · simp only [evaluate, evaluateSpec, hrd, hck, Option.isSome_none, Bool.false_eq_true,
          if_false, Option.some.injEq]
        rw [Bool.eq_iff_iff]
        simp
      · simp [evaluate, evaluateSpec, hrd, hck]
    · rcases hpo : pyFloat o with _ | e <;> rcases hpa : pyFloat a with _ | av <;>
        simp [evaluate, evaluateSpec, hrd, hpo, hpa]
  · intro cfg chk chk' ind o a hrd
    rcases hd : cfg.result_dist with _ | d
    · exact absurd hd hrd
    · simp only [evaluate, hd]
  · intro cfg chk chk' ind o a hrd hck
    simp only [evaluate, hrd, hck]
  · intro cfg chk ind o o' a hrd hck
    rcases hc : cfg.checker with _ | ck
    · exact absurd hc hck
    · simp only [evaluate, hrd, hc]

/-- Witness for `C5_evaluator_precedence`: with a numeric tolerance set, two
completely different checker oracles yield the same verdict. -/
theorem C5_evaluator_precedence_witness :
    evaluate ⟨"app", some "c", some 0, false, false, none⟩ (fun _ _ => 0) "5" "1.0" "1.0" =
      evaluate ⟨"app", some "c", some 0, false, false, none⟩ (fun _ _ => 1) "5" "1.0" "1.0" :=
  C5_evaluator_precedence.2.1 ⟨"app", some "c", some 0, false, false, none⟩
    (fun _ _ => 0) (fun _ _ => 1) "5" "1.0" "1.0" (by simp)

/-! ## C6: cancellation -/

/-- C6.  Cancellation never propagates as an error and never discards the
partial statistics: whenever the prefix before the cancellation point runs
without an uncaught exception, the accumulated state is rendered by the very
same `report` function as a completed run; and cancelling at or beyond the
end of the (limited) case list is observationally identical to a completed
run. -/
theorem C6_cancellation_reports :
    (∀ (cfg : Config) (chk : String → String → Int) (cases : List TestCase)
        (k : ℕ) (s : RunState),
        mainRunState cfg chk cases (some k) = (s, none) →
        mainRun cfg chk cases (some k) = some (report cfg.app cfg.timer s)) ∧
    (∀ (cfg : Config) (chk : String → String → Int) (cases : List TestCase) (k : ℕ),
        ((applyLimit cfg.limit cases).1).length ≤ k →
        mainRun cfg chk cases (some k) = mainRun cfg chk cases none) := by
  constructor
  · intro cfg chk cases k s h
    simp only [mainRun, h]
  · intro cfg chk cases k h
    have ht : ((applyLimit cfg.limit cases).1).take k = (applyLimit cfg.limit cases).1 :=
      List.take_of_length_le h
    simp only [mainRun, mainRunState, ht]

/-- Witness for `C6_cancellation_reports`: a two-case run cancelled after the
first case reports the one-case statistics through `report`. -/
theorem C6_cancellation_reports_witness :
    mainRun ⟨"app", none, none, true, false, none⟩ (fun _ _ => 0)
        [⟨"t1", "5", true, "5", some ("5", 0)⟩, ⟨"t2", "5", true, "6", some ("7", 0)⟩]
        (some 1) =
      some (report "app" false ⟨1, 1, 0, [], [], [], 2, [2], []⟩) :=
  C6_cancellation_reports.1 ⟨"app", none, none, true, false, none⟩ (fun _ _ => 0)
    [⟨"t1", "5", true, "5", some ("5", 0)⟩, ⟨"t2", "5", true, "6", some ("7", 0)⟩]
    1 ⟨1, 1, 0, [], [], [], 2, [2], []⟩ (by decide)

/-! ## C7: the no-tests signal -/

/-- C7.  When zero cases were attempted the report is exactly the
done-testing line followed by the distinct no-tests signal, with returned
boolean `false`; when at least one case was attempted the report returns
`true`, contains the correct-out-of-total percentage line, and never
contains the no-tests signal. -/
theorem C7_no_tests_signal :
    ∀ (app : String) (timer : Bool) (s : RunState),
      (s.total = 0 →
        report app timer s = ([ReportLine.doneTesting app, ReportLine.noValidTests], false)) ∧
      (s.total ≠ 0 →
        (report app timer s).2 = true ∧
        ReportLine.correctSummary s.correct s.total
            (pyRound ((s.correct : ℚ) / (s.total : ℚ) * 100) 2) ∈ (report app timer s).1 ∧
        ReportLine.noValidTests ∉ (report app timer s).1) := by
  intro app timer s
  constructor
  · intro h
    simp [report, h]
  · intro h
    refine ⟨by simp [report, h], by simp [report, h], ?_⟩
    simp only [report, if_neg h]
    split_ifs <;> simp

/-- Witness for `C7_no_tests_signal`: the empty run reports the no-tests
signal and returns `false`. -/
theorem C7_no_tests_signal_witness :
    report "app" false (initState 0) =
      ([ReportLine.doneTesting "app", ReportLine.noValidTests], false) :=
  (C7_no_tests_signal "app" false (initState 0)).1 rfl

/-! ## C8: checker-mode noninterference -/

/-- In checker mode the verdict is the checker's exit status on the payload
`indata ++ "\n" ++ out`, whatever the expected text is. -/
theorem evaluate_checker (cfg : Config) (chk : String → String → Int)
    (ind o out : String) (ck : String)
    (hrd : cfg.result_dist = none) (hck : cfg.checker = some ck) :
    evaluate cfg chk ind o out = some (decide (chk ck (ind ++ "\n" ++ out) = 0)) := by
  simp only [evaluate, hrd, hck]

/-- `pyStrip` of the empty string. -/
theorem pyStrip_empty : pyStrip "" = "" := rfl

/-- C8 (counterexample).  With an external checker configured TOGETHER with a
numeric tolerance, the tolerance takes precedence (line 129 before 132), so
the expected-output content does change the verdict: two cases identical up
to their expected text get different outcomes.  This refutes the claim as
stated ("when an external checker is configured ... never influences"). -/
theorem C8_cex :
    (⟨"app", some "c", some 0, true, false, none⟩ : Config).checker = some "c" ∧
    ((processCase ⟨"app", some "c", some 0, true, false, none⟩ (fun _ _ => 0)
        ⟨"t", "5", true, "1", some ("1", 0)⟩ (initState 1)).1).correct = 1 ∧
    ((processCase ⟨"app", some "c", some 0, true, false, none⟩ (fun _ _ => 0)
        ⟨"t", "5", true, "2", some ("1", 0)⟩ (initState 1)).1).correct = 0 ∧
    ((processCase ⟨"app", some "c", some 0, true, false, none⟩ (fun _ _ => 0)
        ⟨"t", "5", true, "2", some ("1", 0)⟩ (initState 1)).1).wrong = ["t"] := by
  refine ⟨rfl, by decide, by decide, by decide⟩

/-- C8 (amended).  When an external checker is configured AND no numeric
tolerance is configured, the expected-output content (including whether the
file exists at all) never influences the outcome: two cases identical except
for `hasOut`/`outContent` produce identical successor states, the verdict
being the checker's exit status on the trimmed-input/newline/trimmed-output
payload.  Moreover - tolerance configured or not - a missing expected-output
file is never a discovery error in checker mode: it behaves exactly like an
empty expected-output file. -/
theorem C8_checker_noninterference :
    (∀ (cfg : Config) (chk : String → String → Int) (c₁ c₂ : TestCase) (s : RunState),
        cfg.checker ≠ none → cfg.result_dist = none →
        c₁.name = c₂.name → c₁.inContent = c₂.inContent → c₁.invocation = c₂.invocation →
        processCase cfg chk c₁ s = processCase cfg chk c₂ s) ∧
    (∀ (cfg : Config) (chk : String → String → Int) (c : TestCase) (s : RunState),
        cfg.checker ≠ none → c.hasOut = false →
        processCase cfg chk c s =
          processCase cfg chk { c with hasOut := true, outContent := "" } s) := by
  constructor
  · intro cfg chk c₁ c₂ s hck hrd hn hin hinv
    rcases hc : cfg.checker with _ | ck
    · exact absurd hc hck
    have hev : ∀ o out : String, evaluate cfg chk (pyStrip c₂.inContent) o out =
        some (decide (chk ck (pyStrip c₂.inContent ++ "\n" ++ out) = 0)) :=
      fun o out => evaluate_checker cfg chk _ o out ck hrd hc
    simp only [processCase, missingOutMsg, emptyInMsg, excMsg, hn, hin, hinv, hc]
    simp only [hev]
    simp
  · intro cfg chk c s hck hOut
    rcases hc : cfg.checker with _ | ck
    · exact absurd hc hck
    simp only [processCase, missingOutMsg, emptyInMsg, excMsg, hOut, hc, pyStrip_empty]
    simp

/-- Witness for `C8_checker_noninterference`: one case with expected text
"1", one with a missing expected file and stray content "2", identical
otherwise - identical outcomes in checker mode. -/
theorem C8_checker_noninterference_witness :
    processCase ⟨"app", some "c", none, false, false, none⟩ (fun _ _ => 0)
        ⟨"t", "5", true, "1", some ("1", 0)⟩ (initState 1) =
      processCase ⟨"app", some "c", none, false, false, none⟩ (fun _ _ => 0)
        ⟨"t", "5", false, "2", some ("1", 0)⟩ (initState 1) :=
  C8_checker_noninterference.1 ⟨"app", some "c", none, false, false, none⟩ (fun _ _ => 0)
    ⟨"t", "5", true, "1", some ("1", 0)⟩ ⟨"t", "5", false, "2", some ("1", 0)⟩
    (initState 1) (by simp) rfl rfl rfl rfl

/-! ## C9: division guards -/

/-- If at loop entry `approx_total` bounds the number of remaining cases
from above, every newly recorded progress denominator is at least 1 (at most
`k - 1` decrements can precede the `k`-th iteration's division). -/
theorem runLoop_denoms_ge (cfg : Config) (chk : String → String → Int) :
    ∀ (cs : List TestCase) (s : RunState), (cs.length : ℤ) ≤ s.approx_total →
      ∀ d ∈ ((runLoop cfg chk cs s).1).denoms, d ∈ s.denoms ∨ 1 ≤ d := by
  intro cs
  induction cs with
  | nil => intro s _ d hd; exact Or.inl hd
  | cons c rest ih =>
    intro s hlen d hd
    have hden := processCase_denoms cfg chk c s
    have happ := processCase_approx cfg chk c s
    have hlen1 : (rest.length : ℤ) + 1 ≤ s.approx_total := by
      push_cast [List.length_cons] at hlen
      omega
    rcases hp : processCase cfg chk c s with ⟨s', e⟩
    rw [hp] at hden happ
    cases e with
    | none =>
      have hr : runLoop cfg chk (c :: rest) s = runLoop cfg chk rest s' := by
        simp only [runLoop, hp]
      rw [hr] at hd
      have hlen' : (rest.length : ℤ) ≤ s'.approx_total := by
        rcases happ with h | h <;> rw [h] <;> omega
      rcases ih s' hlen' d hd with hmem | hge
      · rw [hden] at hmem
        rcases List.mem_append.mp hmem with hmem | hmem
        · exact Or.inl hmem
        · right
          have hd' : d = s.approx_total := by simpa using hmem
          omega
      · exact Or.inr hge
    | some e =>
      have hr : runLoop cfg chk (c :: rest) s = (s', some e) := by
        simp only [runLoop, hp]
      rw [hr] at hd
      simp only at hd
      rw [hden] at hd
      rcases List.mem_append.mp hd with hmem | hmem
      · exact Or.inl hmem
      · right
        have hd' : d = s.approx_total := by simpa using hmem
        omega

/-- If `approx_total` is negative at loop entry it stays negative, so every
newly recorded denominator is negative (in particular nonzero). -/
theorem runLoop_denoms_neg (cfg : Config) (chk : String → String → Int) :
    ∀ (cs : List TestCase) (s : RunState), s.approx_total < 0 →
      ∀ d ∈ ((runLoop cfg chk cs s).1).denoms, d ∈ s.denoms ∨ d < 0 := by
  intro cs
  induction cs with
  | nil => intro s _ d hd; exact Or.inl hd
  | cons c rest ih =>
    intro s hneg d hd
    have hden := processCase_denoms cfg chk c s
    have happ := processCase_approx cfg chk c s
    rcases hp : processCase cfg chk c s with ⟨s', e⟩
    rw [hp] at hden happ
    cases e with
    | none =>
      have hr : runLoop cfg chk (c :: rest) s = runLoop cfg chk rest s' := by
        simp only [runLoop, hp]
      rw [hr] at hd
      have hneg' : s'.approx_total < 0 := by
        rcases happ with h | h <;> rw [h] <;> omega
      rcases ih s' hneg' d hd with hmem | hlt
      · rw [hden] at hmem
        rcases List.mem_append.mp hmem with hmem | hmem
        · exact Or.inl hmem
        · right
          have hd' : d = s.approx_total := by simpa using hmem
          omega
      · exact Or.inr hlt
    | some e =>
      have hr : runLoop cfg chk (c :: rest) s = (s', some e) := by
        simp only [runLoop, hp]
      rw [hr] at hd
      simp only at hd
      rw [hden] at hd
      rcases List.mem_append.mp hd with hmem | hmem
      · exact Or.inl hmem
      · right
        have hd' : d = s.approx_total := by simpa using hmem
        omega

/-- With an unset or nonnegative limit, the truncated case list is no longer
than the initial `approx_total`. -/
theorem applyLimit_le (limit : Option ℤ) (files : List TestCase)
    (h : ∀ l, limit = some l → 0 ≤ l) :
    (((applyLimit limit files).1).length : ℤ) ≤ (applyLimit limit files).2 := by
  match limit with
  | none => simp [applyLimit]
  | some l =>
    have hl : 0 ≤ l := h l rfl
    simp only [applyLimit]
    split
    · simp only [pySlice, if_pos hl]
      have h2 : (files.take l.toNat).length = min l.toNat files.length :=
        List.length_take _ _
      have h3 : (l.toNat : ℤ) = l := Int.toNat_of_nonneg hl
      have h4 : min l.toNat files.length ≤ l.toNat := Nat.min_le_left _ _
      rw [h2]
      omega
    · simp

/-- Every run either starts with `approx_total` bounding the case count or
with a negative `approx_total` (negative configured limit). -/
theorem applyLimit_dichotomy (limit : Option ℤ) (files : List TestCase) :
    (((applyLimit limit files).1).length : ℤ) ≤ (applyLimit limit files).2 ∨
    (applyLimit limit files).2 < 0 := by
  match limit with
  | none => left; simp [applyLimit]
  | some l =>
    rcases le_or_lt 0 l with hl | hl
    · left
      exact applyLimit_le (some l) files (fun l' hl' => (Option.some.inj hl') ▸ hl)
    · simp only [applyLimit]
      split
      · right; exact hl
      · left; simp

/-- Whenever the initial `approx_total` bounds the case count, all recorded
denominators of the run are at least 1 (for any cancellation point). -/
theorem mainRunState_denoms_ge (cfg : Config) (chk : String → String → Int)
    (cases : List TestCase) (cancel : Option ℕ)
    (h : (((applyLimit cfg.limit cases).1).length : ℤ) ≤ (applyLimit cfg.limit cases).2) :
    ∀ d ∈ ((mainRunState cfg chk cases cancel).1).denoms, 1 ≤ d := by
  intro d hd
  cases cancel with
  | none =>
    rcases runLoop_denoms_ge cfg chk ((applyLimit cfg.limit cases).1)
        (initState (applyLimit cfg.limit cases).2) h d hd with hmem | hge
    · simp [initState] at hmem
    · exact hge
  | some k =>
    have h1 : (((applyLimit cfg.limit cases).1).take k).length ≤
        ((applyLimit cfg.limit cases).1).length := by
      rw [List.length_take]; exact Nat.min_le_right _ _
    have h2 : ((((applyLimit cfg.limit cases).1).take k).length : ℤ) ≤
        (((applyLimit cfg.limit cases).1).length : ℤ) := by exact_mod_cast h1
    rcases runLoop_denoms_ge cfg chk (((applyLimit cfg.limit cases).1).take k)
        (initState (applyLimit cfg.limit cases).2) (le_trans h2 h) d hd with hmem | hge
    · simp [initState] at hmem
    · exact hge

/-- With a negative initial `approx_total`, all recorded denominators are
negative. -/
theorem mainRunState_denoms_neg (cfg : Config) (chk : String → String → Int)
    (cases : List TestCase) (cancel : Option ℕ)
    (h : (applyLimit cfg.limit cases).2 < 0) :
    ∀ d ∈ ((mainRunState cfg chk cases cancel).1).denoms, d < 0 := by
  intro d hd
  cases cancel with
  | none =>
    rcases runLoop_denoms_neg cfg chk ((applyLimit cfg.limit cases).1)
        (initState (applyLimit cfg.limit cases).2) h d hd with hmem | hlt
    · simp [initState] at hmem
    · exact hlt
  | some k =>
    rcases runLoop_denoms_neg cfg chk (((applyLimit cfg.limit cases).1).take k)
        (initState (applyLimit cfg.limit cases).2) h d hd with hmem | hlt
    · simp [initState] at hmem
    · exact hlt

/-- C9 (counterexample).  A negative `--limit` (accepted by the CLI) makes
`approx_total` negative: with limit `-1` and two discovered cases, the
single processed case records the progress denominator `-1`, refuting the
claim that `approx_total` is at least 1 whenever it is evaluated. -/
theorem C9_cex :
    ((mainRunState ⟨"app", none, none, true, false, some (-1)⟩ (fun _ _ => 0)
        [⟨"t1", "5", true, "5", some ("5", 0)⟩, ⟨"t2", "5", true, "5", some ("5", 0)⟩]
        none).1).denoms = [-1] ∧ ¬((1 : ℤ) ≤ -1) := by
  refine ⟨by decide, by decide⟩

/-- C9 (amended).  The progress percentage `total / approx_total * 100` has
its arguments evaluated on every iteration even with verbosity off; its
denominator is at least 1 whenever the configured limit, if any, is
nonnegative (at most `k - 1` decrements precede the `k`-th division), and it
is nonzero in every run (a negative limit makes it negative, never zero), so
no division by zero occurs; the final `correct/total` and `overtime/total`
percentages are computed only under the `total ≠ 0` guard - when `total = 0`
the report contains no percentage line at all. -/
theorem C9_division_guards :
    (∀ (cfg : Config) (chk : String → String → Int) (cases : List TestCase)
        (cancel : Option ℕ),
        (∀ l, cfg.limit = some l → 0 ≤ l) →
        ∀ d ∈ ((mainRunState cfg chk cases cancel).1).denoms, 1 ≤ d) ∧
    (∀ (cfg : Config) (chk : String → String → Int) (cases : List TestCase)
        (cancel : Option ℕ),
        ∀ d ∈ ((mainRunState cfg chk cases cancel).1).denoms, d ≠ 0) ∧
    (∀ (app : String) (timer : Bool) (s : RunState), s.total = 0 →
        report app timer s = ([ReportLine.doneTesting app, ReportLine.noValidTests], false)) := by
  refine ⟨?_, ?_, ?_⟩
  · intro cfg chk cases cancel hlim d hd
    exact mainRunState_denoms_ge cfg chk cases cancel (applyLimit_le cfg.limit cases hlim) d hd
  · intro cfg chk cases cancel d hd
    rcases applyLimit_dichotomy cfg.limit cases with hle | hneg
    · have := mainRunState_denoms_ge cfg chk cases cancel hle d hd
      omega
    · have := mainRunState_denoms_neg cfg chk cases cancel hneg d hd
      omega
  · intro app timer s h
    simp [report, h]

/-- Witness for `C9_division_guards`: a one-case run records exactly the
denominator 1. -/
theorem C9_division_guards_witness :
    (1 : ℤ) ∈ ((mainRunState ⟨"app", none, none, true, false, none⟩ (fun _ _ => 0)
        [⟨"t", "5", true, "5", some ("5", 0)⟩] none).1).denoms ∧ (1 : ℤ) ≤ 1 :=
  ⟨by decide,
   C9_division_guards.1 ⟨"app", none, none, true, false, none⟩ (fun _ _ => 0)
     [⟨"t", "5", true, "5", some ("5", 0)⟩] none (fun _ h => nomatch h) 1 (by decide)⟩

/-! ## C10: the printed times -/

/-- Filtering a list by a predicate that rejects one of its members makes it
strictly shorter. -/
theorem length_filter_lt_of_mem {α : Type} (p : α → Bool) :
    ∀ (ts : List α) (t : α), t ∈ ts → p t = false →
      (ts.filter p).length < ts.length := by
  intro ts
  induction ts with
  | nil => intro t ht _; cases ht
  | cons a rest ih =>
    intro t ht hp
    rcases List.mem_cons.mp ht with rfl | hmem
    · rw [List.filter_cons, hp]
      simp only [Bool.false_eq_true, if_false, List.length_cons]
      have := List.length_filter_le p rest
      omega
    · rw [List.filter_cons]
      have h1 := ih t hmem hp
      split <;> simp only [List.length_cons] <;> omega

/-- A duration that rounds to zero at 4 decimal digits. -/
theorem pyRound_eq_zero_of_small (t : ℚ) (h0 : 0 ≤ t) (h1 : t < 1 / 20000) :
    pyRound t 4 = 0 := by
  have hx1 : t * (10 : ℚ) ^ 4 < 1 / 2 := by nlinarith
  have hx0 : (0 : ℚ) ≤ t * (10 : ℚ) ^ 4 := by positivity
  have hf : ⌊t * (10 : ℚ) ^ 4⌋ = 0 := by
    rw [Int.floor_eq_zero_iff]
    exact ⟨hx0, by linarith⟩
  have hr : roundHalfEven (t * (10 : ℚ) ^ 4) = 0 := by
    simp only [roundHalfEven, hf]
    rw [if_pos]
    push_cast
    linarith
  simp [pyRound, hr]

/-- C10.  With the timing flag on, every completed invocation appends its
duration to the recorded list (whatever the verdict), the `Times:` line of
the report shows `reportTimes` of that list, and any recorded duration below
0.00005 seconds rounds to zero at 4 decimal digits and is silently dropped,
making the printed list strictly shorter than the recorded one. -/
theorem C10_times_filter :
    (∀ (cfg : Config) (chk : String → String → Int) (c : TestCase) (s : RunState)
        (rawOut : String) (t : ℚ),
        cfg.timer = true → c.hasOut = true → pyStrip c.inContent ≠ "" →
        c.invocation = some (rawOut, t) →
        ((processCase cfg chk c s).1).times = s.times ++ [t]) ∧
    (∀ t : ℚ, 0 ≤ t → t < 1 / 20000 → pyRound t 4 = 0) ∧
    (∀ (app : String) (s : RunState), s.total ≠ 0 →
        ReportLine.timesLine (reportTimes s.times) ∈ (report app true s).1) ∧
    (∀ (ts : List ℚ) (t : ℚ), t ∈ ts → pyRound t 4 = 0 →
        (reportTimes ts).length < ts.length) := by
  refine ⟨?_, pyRound_eq_zero_of_small, ?_, ?_⟩
  · intro cfg chk c s rawOut t htimer hOut hin hinv
    have hcond : ¬(c.hasOut = false ∧ cfg.empty_means_any = false ∧ cfg.checker = none) := by
      simp [hOut]
    simp only [processCase, if_neg hcond, if_neg hin, hinv, htimer]
    repeat' split
    all_goals simp_all
  · intro app s h
    simp [report, h]
  · intro ts t ht hz
    unfold reportTimes
    rw [List.length_map]
    exact length_filter_lt_of_mem _ ts t ht (by simp [hz])

/-- Witness for `C10_times_filter`: ten microseconds rounds to zero at 4
decimal digits. -/
theorem C10_times_filter_witness :
    (0 : ℚ) ≤ 1 / 100000 ∧ (1 / 100000 : ℚ) < 1 / 20000 ∧ pyRound (1 / 100000) 4 = 0 :=
  ⟨by norm_num, by norm_num,
   C10_times_filter.2.1 (1 / 100000) (by norm_num) (by norm_num)⟩

end Thetacheck
